import Mathlib

/-!
Verification of the python-bus binding (`src/native_bus.pyx`) against its
specification.

The repository contains only the Cython binding layer: the native bus
library (`bus_create`, `bus_write`, `bus_poll`, …) appears in the source
solely as `cdef extern` declarations with documentation comments.  The
binding-layer definitions below (`bus_*_wrapped`, `bus_callback_wrapper`,
the UTF-8 marshalling) are translated directly from the Cython source.
The native core (shared channel state, write path, two-phase poll
protocol, named channel store) is modelled from the spec and from the
extern declarations' documentation comments in the source.
-/

set_option autoImplicit false

namespace PythonBus

/-- A message: the content of a NUL-terminated C string (the bytes before
the terminator), each byte a natural number. -/
abbrev Msg := List Nat

/-- A bus pathname, as the byte sequence of its encoding. -/
abbrev Path := List Nat

/-- The error taxonomy of the spec (§7). -/
inductive BusError where
  | MessageTooLarge
  | WouldBlock
  | AlreadyExists
  | NotFound
  | PermissionDenied
  | Interrupted
  | IOError
  | Invalid
  deriving DecidableEq

/-- The Linux `errno` value `EAGAIN`. -/
def EAGAIN : Nat := 11

/-- The Linux `errno` value `ENOENT`. -/
def ENOENT : Nat := 2

/-- The Linux `errno` value `EEXIST`. -/
def EEXIST : Nat := 17

/-- Modelled from the spec: the platform error code reported for each
error of the taxonomy ("`WouldBlock` (mapped from `EAGAIN`)"). -/
def errnoOf : BusError → Nat
  | .WouldBlock => EAGAIN
  | .NotFound => ENOENT
  | .AlreadyExists => EEXIST
  | .MessageTooLarge => 90
  | .PermissionDenied => 13
  | .Interrupted => 4
  | .IOError => 5
  | .Invalid => 22

/-- The per-listener phase of the two-phase poll protocol (spec §4.4):
`Idle → Announced → Waiting → (Idle)`; `waiting` only occurs inside a
blocking `poll`, so the persistent phases are `idle` and `announced`. -/
inductive ListenerPhase where
  | idle
  | announced
  deriving DecidableEq

/-- Modelled from the spec: the per-listener registration state of the
two-phase poll protocol — the phase and the sequence number last
observed by this listener (spec §4.4, §5).  The native library keeps
this in the shared channel state; it is per listening thread. -/
structure Listener where
  phase : ListenerPhase
  lastSeen : Nat
  deriving DecidableEq

/-- Modelled from the spec: the Shared Channel State (spec §3) that every
attached process maps — a fixed-capacity single-slot message buffer
(capacity `BUS_MEMORY_SIZE`, including the terminator), a monotonically
increasing sequence number, a write-lock, and a registered-listener
count used by the two-phase poll protocol. -/
structure SharedState where
  capacity : Nat
  buffer : List Nat
  seqNum : Nat
  writeLocked : Bool
  waiters : Nat
  deriving DecidableEq

/-- The content a reader of a NUL-terminated buffer sees: the bytes
strictly before the first NUL. -/
def cstr (buf : List Nat) : Msg := buf.takeWhile (fun b => b ≠ 0)

/-- Outcome of the write path. -/
inductive WriteOutcome where
  | ok
  | err (e : BusError)
  | blocks
  deriving DecidableEq

/-- Modelled from the spec: the native write path (spec §4.3, and the
`bus_write` extern documentation: "may not be longer than
`BUS_MEMORY_SIZE` including the NUL-termination"; "`BUS_NOWAIT` fail
if other process is attempting to write").  A message whose length
including the terminator exceeds the capacity fails with
`MessageTooLarge` without touching the state; with `NOWAIT` set and the
write-lock held by a concurrent writer it fails with `WouldBlock`;
without `NOWAIT` and the lock held it suspends (`blocks`); otherwise it
copies the message into the buffer as a NUL-terminated string and
increments the sequence number. -/
def bus_write (st : SharedState) (message : Msg) (nowait : Bool) :
    WriteOutcome × SharedState :=
  if st.capacity < message.length + 1 then (.err .MessageTooLarge, st)
  else if st.writeLocked then
    if nowait then (.err .WouldBlock, st) else (.blocks, st)
  else (.ok, { st with buffer := message ++ [0], seqNum := st.seqNum + 1 })

/-- Modelled from the spec: `poll_start` (spec §4.4) — transitions the
listener from `Idle` to `Announced`, registering it in the shared
channel state before any blocking wait begins and recording the current
sequence number as the last observed one. -/
def bus_poll_start (st : SharedState) (l : Listener) :
    Option BusError × SharedState × Listener :=
  match l.phase with
  | .idle =>
      (none, { st with waiters := st.waiters + 1 },
       { phase := .announced, lastSeen := st.seqNum })
  | .announced => (some .Invalid, st, l)

/-- Outcome of the poll path: a delivered message, an error, or a
suspension waiting for the next broadcast. -/
inductive PollOutcome where
  | message (m : Msg)
  | err (e : BusError)
  | blocks
  deriving DecidableEq

/-- Modelled from the spec: `poll` (spec §4.4, and the `bus_poll` extern
documentation: "`BUS_NOWAIT` if the bus should fail and set `errno` to
`EAGAIN` if there isn't already a message available").  An announced
listener whose last observed sequence number is behind the shared one
receives the current buffer's NUL-terminated content and catches up;
otherwise it fails with `WouldBlock` under `NOWAIT` and suspends
(`blocks`) without it. -/
def bus_poll (st : SharedState) (l : Listener) (nowait : Bool) :
    PollOutcome × Listener :=
  match l.phase with
  | .idle => (.err .Invalid, l)
  | .announced =>
      if l.lastSeen < st.seqNum then
        (.message (cstr st.buffer), { l with lastSeen := st.seqNum })
      else if nowait then (.err .WouldBlock, l)
      else (.blocks, l)

/-- Modelled from the spec: `poll_stop` (spec §4.4) — deregisters the
listener, transitioning it back to `Idle`. -/
def bus_poll_stop (st : SharedState) (l : Listener) :
    Option BusError × SharedState × Listener :=
  match l.phase with
  | .announced =>
      (none, { st with waiters := st.waiters - 1 }, { l with phase := .idle })
  | .idle => (some .Invalid, st, l)

theorem cstr_append_nul (m : Msg) (h : (0 : Nat) ∉ m) : cstr (m ++ [0]) = m := by
  induction m with
  | nil => simp [cstr]
  | cons b bs ih =>
      simp only [List.mem_cons, not_or] at h
      have hb : b ≠ 0 := fun hb0 => h.1 hb0.symm
      have hd : decide (b ≠ 0) = true := decide_eq_true hb
      simp only [cstr, List.cons_append, List.takeWhile, hd]
      exact congrArg (b :: ·) (ih h.2)

/-- C1: for every message `m` whose length including the NUL terminator is
below the capacity `BUS_MEMORY_SIZE`, a writer's `write(h, m)` after a
listener completed `poll_start` succeeds, and the listener's `poll`
returns exactly `m` (round-trip through the shared single-slot buffer). -/
theorem write_then_poll_roundtrip (st : SharedState) (l : Listener) (m : Msg)
    (hnul : (0 : Nat) ∉ m) (hlen : m.length + 1 < st.capacity)
    (hidle : l.phase = .idle) (hlock : st.writeLocked = false) :
    (bus_write (bus_poll_start st l).2.1 m false).1 = .ok ∧
    (bus_poll (bus_write (bus_poll_start st l).2.1 m false).2
        (bus_poll_start st l).2.2 false).1 = .message m := by
  have h1 : ¬ (st.capacity < m.length + 1) := by omega
  constructor
  · simp [bus_poll_start, hidle, bus_write, h1, hlock]
  · simp [bus_poll_start, hidle, bus_write, h1, hlock, bus_poll,
      Nat.lt_succ_self, cstr_append_nul m hnul]

theorem write_then_poll_roundtrip_witness :
    (bus_write (bus_poll_start ⟨4, [0], 0, false, 0⟩ ⟨.idle, 0⟩).2.1
      [104, 105] false).1 = .ok ∧
    (bus_poll (bus_write (bus_poll_start ⟨4, [0], 0, false, 0⟩ ⟨.idle, 0⟩).2.1
        [104, 105] false).2
      (bus_poll_start ⟨4, [0], 0, false, 0⟩ ⟨.idle, 0⟩).2.2 false).1 =
      .message [104, 105] :=
  write_then_poll_roundtrip ⟨4, [0], 0, false, 0⟩ ⟨.idle, 0⟩ [104, 105]
    (by decide) (by decide) rfl rfl

/-- C2: a write whose message length reaches the capacity (so that message
plus terminator exceeds `BUS_MEMORY_SIZE`) fails with `MessageTooLarge`
and leaves the shared state — in particular the sequence number —
unchanged; at the boundary, `capacity - 1` bytes plus terminator succeed
while `capacity` bytes plus terminator fail. -/
theorem write_too_large_fails_unchanged (st : SharedState) (m : Msg) (nowait : Bool) :
    (st.capacity ≤ m.length →
      bus_write st m nowait = (.err .MessageTooLarge, st) ∧
      (bus_write st m nowait).2.seqNum = st.seqNum) ∧
    (m.length + 1 = st.capacity → st.writeLocked = false →
      (bus_write st m nowait).1 = .ok) ∧
    (m.length = st.capacity →
      (bus_write st m nowait).1 = .err .MessageTooLarge) := by
  refine ⟨fun hge => ?_, fun hb hlock => ?_, fun heq => ?_⟩
  · have h1 : st.capacity < m.length + 1 := by omega
    simp [bus_write, h1]
  · have h1 : ¬ (st.capacity < m.length + 1) := by omega
    simp [bus_write, h1, hlock]
  · have h1 : st.capacity < m.length + 1 := by omega
    simp [bus_write, h1]

theorem write_too_large_fails_unchanged_witness :
    (bus_write ⟨3, [0], 5, false, 0⟩ [104, 105, 106] false =
        (.err .MessageTooLarge, ⟨3, [0], 5, false, 0⟩) ∧
      (bus_write ⟨3, [0], 5, false, 0⟩ [104, 105, 106] false).2.seqNum = 5) ∧
    (bus_write ⟨3, [0], 5, false, 0⟩ [104, 105] false).1 = .ok := by
  refine ⟨?_, ?_⟩
  · exact (write_too_large_fails_unchanged ⟨3, [0], 5, false, 0⟩ [104, 105, 106]
      false).1 (by decide)
  · exact (write_too_large_fails_unchanged ⟨3, [0], 5, false, 0⟩ [104, 105]
      false).2.1 (by decide) rfl

/-- C3: a listener that completes `poll_start` before a write's sequence
increment observes that write on its next `poll`: the write succeeds,
the poll returns the broadcast message (the NUL-terminated content of
the written buffer) and in particular does not block — no lost-wakeup
window between announcing intent to listen and waiting. -/
theorem poll_start_no_lost_wakeup (st : SharedState) (l : Listener) (m : Msg)
    (hlen : m.length + 1 ≤ st.capacity)
    (hidle : l.phase = .idle) (hlock : st.writeLocked = false) :
    (bus_write (bus_poll_start st l).2.1 m false).1 = .ok ∧
    (bus_poll (bus_write (bus_poll_start st l).2.1 m false).2
        (bus_poll_start st l).2.2 false).1 = .message (cstr (m ++ [0])) ∧
    (bus_poll (bus_write (bus_poll_start st l).2.1 m false).2
        (bus_poll_start st l).2.2 false).1 ≠ .blocks := by
  have h1 : ¬ (st.capacity < m.length + 1) := by omega
  refine ⟨?_, ?_, ?_⟩
  · simp [bus_poll_start, hidle, bus_write, h1, hlock]
  · simp [bus_poll_start, hidle, bus_write, h1, hlock, bus_poll, Nat.lt_succ_self]
  · simp [bus_poll_start, hidle, bus_write, h1, hlock, bus_poll, Nat.lt_succ_self]

theorem poll_start_no_lost_wakeup_witness :
    (bus_write (bus_poll_start ⟨2, [0], 7, false, 1⟩ ⟨.idle, 3⟩).2.1
      [42] false).1 = .ok ∧
    (bus_poll (bus_write (bus_poll_start ⟨2, [0], 7, false, 1⟩ ⟨.idle, 3⟩).2.1
        [42] false).2
      (bus_poll_start ⟨2, [0], 7, false, 1⟩ ⟨.idle, 3⟩).2.2 false).1 =
      .message (cstr ([42] ++ [0])) ∧
    (bus_poll (bus_write (bus_poll_start ⟨2, [0], 7, false, 1⟩ ⟨.idle, 3⟩).2.1
        [42] false).2
      (bus_poll_start ⟨2, [0], 7, false, 1⟩ ⟨.idle, 3⟩).2.2 false).1 ≠ .blocks :=
  poll_start_no_lost_wakeup ⟨2, [0], 7, false, 1⟩ ⟨.idle, 3⟩ [42]
    (by decide) rfl rfl

/-- C4: with `NOWAIT` set neither call blocks: a `NOWAIT` write whose
message fits fails immediately with `WouldBlock` when the write-lock is
held by a concurrent writer, leaving the state unchanged, and a `NOWAIT`
poll by an announced listener fails immediately with `WouldBlock` when
no new message is already available; `WouldBlock` carries the platform
error code `EAGAIN`. -/
theorem nowait_fails_immediately (st : SharedState) (l : Listener) (m : Msg) :
    (bus_write st m true).1 ≠ .blocks ∧
    (st.writeLocked = true → m.length + 1 ≤ st.capacity →
      bus_write st m true = (.err .WouldBlock, st)) ∧
    (bus_poll st l true).1 ≠ .blocks ∧
    (l.phase = .announced → st.seqNum ≤ l.lastSeen →
      (bus_poll st l true).1 = .err .WouldBlock) ∧
    errnoOf .WouldBlock = EAGAIN := by
  refine ⟨?_, fun hlock hlen => ?_, ?_, fun hann hseen => ?_, rfl⟩
  · simp only [bus_write]
    split
    · simp
    · split <;> simp
  · have h1 : ¬ (st.capacity < m.length + 1) := by omega
    simp [bus_write, h1, hlock]
  · cases hph : l.phase with
    | idle => simp [bus_poll, hph]
    | announced =>
        simp only [bus_poll, hph]
        split
        · simp
        · simp
  · have h1 : ¬ (l.lastSeen < st.seqNum) := by omega
    simp [bus_poll, hann, h1]

theorem nowait_fails_immediately_witness :
    bus_write ⟨4, [0], 0, true, 0⟩ [104] true = (.err .WouldBlock, ⟨4, [0], 0, true, 0⟩) ∧
    (bus_poll ⟨4, [0], 0, true, 0⟩ ⟨.announced, 0⟩ true).1 = .err .WouldBlock :=
  ⟨(nowait_fails_immediately ⟨4, [0], 0, true, 0⟩ ⟨.announced, 0⟩ [104]).2.1
      rfl (by decide),
    (nowait_fails_immediately ⟨4, [0], 0, true, 0⟩ ⟨.announced, 0⟩ [104]).2.2.2.1
      rfl (by decide)⟩

/-- The length of the longest pathname in a store. -/
def maxPathLen (fs : List Path) : Nat := fs.foldr (fun p n => max p.length n) 0

/-- Modelled from the spec: the fresh unique pathname the native
`bus_create` generates when no pathname is given ("generates a fresh
unique name in a standard runtime-communication directory"); any
pathname not already present works, here one longer than every existing
one. -/
def freshPath (fs : List Path) : Path := List.replicate (maxPathLen fs + 1) 97

theorem length_le_maxPathLen {fs : List Path} {p : Path} (h : p ∈ fs) :
    p.length ≤ maxPathLen fs := by
  induction fs with
  | nil => cases h
  | cons q qs ih =>
      rcases List.mem_cons.mp h with h | h
      · subst h
        exact le_max_left _ _
      · exact le_trans (ih h) (le_max_right _ _)

theorem freshPath_not_mem (fs : List Path) : freshPath fs ∉ fs := by
  intro h
  have hle := length_le_maxPathLen h
  rw [freshPath, List.length_replicate] at hle
  omega

/-- Modelled from the spec: the named channel store's `create`
(spec §4.1, and the `bus_create` extern documentation: "`BUS_EXCL`
(if `file` is not `NULL`) to fail if the file already exists, otherwise
if the file exists, nothing will happen").  The store is the set of
existing pathnames; creating adds the backing object. -/
def bus_create (fs : List Path) (file : Option Path) (excl : Bool) :
    Except BusError Path × List Path :=
  match file with
  | some p =>
      if p ∈ fs then
        if excl then (.error .AlreadyExists, fs)
        else (.ok p, fs)
      else (.ok p, p :: fs)
  | none => (.ok (freshPath fs), freshPath fs :: fs)

/-- C5: `create` with a given path and `EXCL` fails with `AlreadyExists`
when the path exists; with a given path and no `EXCL` it succeeds
idempotently on an existing path; with no path it succeeds — for either
value of `EXCL` — with a generated path that is fresh (not already in
the store); and on success with a given path the returned path equals
the input path. -/
theorem create_excl_fresh_idempotent (fs : List Path) (p : Path) (excl : Bool) :
    (p ∈ fs → bus_create fs (some p) true = (.error .AlreadyExists, fs)) ∧
    (p ∈ fs → bus_create fs (some p) false = (.ok p, fs)) ∧
    ((bus_create fs none excl).1 = .ok (freshPath fs) ∧ freshPath fs ∉ fs) ∧
    (∀ q, (bus_create fs (some p) excl).1 = .ok q → q = p) := by
  refine ⟨fun hin => ?_, fun hin => ?_, ⟨rfl, freshPath_not_mem fs⟩, fun q hq => ?_⟩
  · simp [bus_create, hin]
  · simp [bus_create, hin]
  · by_cases hin : p ∈ fs
    · cases excl with
      | false =>
          simp [bus_create, hin] at hq
          exact hq.symm
      | true => simp [bus_create, hin] at hq
    · simp [bus_create, hin] at hq
      exact hq.symm

theorem create_excl_fresh_idempotent_witness :
    bus_create [[97]] (some [97]) true = (.error .AlreadyExists, [[97]]) ∧
    bus_create [[97]] (some [97]) false = (.ok [97], [[97]]) ∧
    ((bus_create [[97]] none true).1 = .ok (freshPath [[97]]) ∧
      freshPath [[97]] ∉ [[97]]) :=
  ⟨(create_excl_fresh_idempotent [[97]] [97] true).1 (by decide),
    (create_excl_fresh_idempotent [[97]] [97] false).2.1 (by decide),
    (create_excl_fresh_idempotent [[97]] [97] true).2.2.1⟩

/-- Modelled from the spec: an attachment handle — a per-process mapping
of the shared channel state for some pathname (spec §3, §4.2). -/
structure Attachment where
  path : Path
  mapping : SharedState
  deriving DecidableEq

/-- Modelled from the spec: the named channel store's `unlink`
(spec §4.1): removes the named object, failing with `NotFound` when it
is absent; POSIX unlink semantics on the backing object — the mappings
of concurrently attached processes are untouched. -/
def bus_unlink (fs : List Path) (attached : List Attachment) (p : Path) :
    Except BusError Unit × List Path × List Attachment :=
  if p ∈ fs then (.ok (), fs.erase p, attached)
  else (.error .NotFound, fs, attached)

/-- C6: `unlink` fails with `NotFound` when the named object is absent;
when it exists, `unlink` succeeds regardless of the set of attached
processes, and the attached processes' existing mappings are unchanged,
so they continue operating on them until they close their handles. -/
theorem unlink_notfound_posix (fs : List Path) (attached : List Attachment)
    (p : Path) :
    (p ∉ fs → bus_unlink fs attached p = (.error .NotFound, fs, attached)) ∧
    (p ∈ fs → (bus_unlink fs attached p).1 = .ok ()) ∧
    (bus_unlink fs attached p).2.2 = attached := by
  refine ⟨fun hout => ?_, fun hin => ?_, ?_⟩
  · simp [bus_unlink, hout]
  · simp [bus_unlink, hin]
  · by_cases hin : p ∈ fs <;> simp [bus_unlink, hin]

/-- A concrete attachment used by witnesses. -/
def att0 : Attachment := ⟨[98], ⟨4, [0], 0, false, 0⟩⟩

theorem unlink_notfound_posix_witness :
    bus_unlink [[98]] [att0] [99] = (.error .NotFound, [[98]], [att0]) ∧
    (bus_unlink [[98]] [att0] [98]).1 = .ok () :=
  ⟨(unlink_notfound_posix [[98]] [att0] [99]).1 (by decide),
    (unlink_notfound_posix [[98]] [att0] [98]).2.1 (by decide)⟩

/-- An operation on one shared channel, as seen by one listener (for the
sequence-number invariant). -/
inductive BusOp where
  | write (m : Msg) (nowait : Bool)
  | pollStart
  | poll (nowait : Bool)
  | pollStop

/-- One step of the system: the post-state of applying an operation to
the shared state and a listener (a failed or suspended operation leaves
its returned state). -/
def applyOp : SharedState × Listener → BusOp → SharedState × Listener
  | (st, l), .write m nw => ((bus_write st m nw).2, l)
  | (st, l), .pollStart => ((bus_poll_start st l).2.1, (bus_poll_start st l).2.2)
  | (st, l), .poll nw => (st, (bus_poll st l nw).2)
  | (st, l), .pollStop => ((bus_poll_stop st l).2.1, (bus_poll_stop st l).2.2)

/-- The state after a whole trace of operations. -/
def applyOps (s : SharedState × Listener) (ops : List BusOp) :
    SharedState × Listener :=
  ops.foldl applyOp s

/-- Whether an operation is a successful broadcast from the given state. -/
def writeOk (s : SharedState × Listener) : BusOp → Bool
  | .write m nw => decide ((bus_write s.1 m nw).1 = .ok)
  | _ => false

/-- The number of successful broadcasts along a trace. -/
def countWriteOk : SharedState × Listener → List BusOp → Nat
  | _, [] => 0
  | s, op :: ops => (if writeOk s op then 1 else 0) + countWriteOk (applyOp s op) ops

theorem seqNum_applyOp (s : SharedState × Listener) (op : BusOp) :
    (applyOp s op).1.seqNum = s.1.seqNum + (if writeOk s op then 1 else 0) := by
  obtain ⟨st, l⟩ := s
  cases op with
  | write m nw =>
      simp only [applyOp, writeOk, bus_write]
      split
      · simp
      · split
        · split <;> simp
        · simp
  | pollStart => cases hph : l.phase <;> simp [applyOp, writeOk, bus_poll_start, hph]
  | poll nw => simp [applyOp, writeOk]
  | pollStop => cases hph : l.phase <;> simp [applyOp, writeOk, bus_poll_stop, hph]

theorem seqNum_applyOps (s : SharedState × Listener) (ops : List BusOp) :
    (applyOps s ops).1.seqNum = s.1.seqNum + countWriteOk s ops := by
  induction ops generalizing s with
  | nil => rfl
  | cons op ops ih =>
      have h1 : applyOps s (op :: ops) = applyOps (applyOp s op) ops := rfl
      have h2 : countWriteOk s (op :: ops) =
          (if writeOk s op then 1 else 0) + countWriteOk (applyOp s op) ops := rfl
      rw [h1, ih (applyOp s op), seqNum_applyOp s op, h2, Nat.add_assoc]

/-- C7: the sequence number strictly increases across broadcasts: a step
changes it exactly when it is a successful write, which increments it by
one; along any trace it grows by exactly the number of successful
broadcasts, and two observations separated by at least one successful
broadcast see strictly increasing values. -/
theorem seqNum_strictly_increases (s : SharedState × Listener) (op : BusOp)
    (ops : List BusOp) :
    ((applyOp s op).1.seqNum = s.1.seqNum + (if writeOk s op then 1 else 0)) ∧
    ((applyOps s ops).1.seqNum = s.1.seqNum + countWriteOk s ops) ∧
    (0 < countWriteOk s ops → s.1.seqNum < (applyOps s ops).1.seqNum) := by
  refine ⟨seqNum_applyOp s op, seqNum_applyOps s ops, fun h => ?_⟩
  rw [seqNum_applyOps s ops]
  omega

/-- A concrete system state used by witnesses. -/
def sys0 : SharedState × Listener := (⟨4, [0], 0, false, 0⟩, ⟨.idle, 0⟩)

theorem seqNum_strictly_increases_witness :
    0 < countWriteOk sys0 [BusOp.write [1] false, BusOp.write [2] false] ∧
    sys0.1.seqNum <
      (applyOps sys0 [BusOp.write [1] false, BusOp.write [2] false]).1.seqNum :=
  ⟨by decide,
    (seqNum_strictly_increases sys0 BusOp.pollStart
      [BusOp.write [1] false, BusOp.write [2] false]).2.2 (by decide)⟩

/-- UTF-8 encoding of one Unicode code point, as Python's
`str.encode('utf-8')` produces for each character of a `str`. -/
def utf8EncodeChar (c : Nat) : List Nat :=
  if c < 0x80 then [c]
  else if c < 0x800 then [0xC0 + c / 0x40, 0x80 + c % 0x40]
  else if c < 0x10000 then
    [0xE0 + c / 0x1000, 0x80 + c / 0x40 % 0x40, 0x80 + c % 0x40]
  else
    [0xF0 + c / 0x40000, 0x80 + c / 0x1000 % 0x40, 0x80 + c / 0x40 % 0x40,
      0x80 + c % 0x40]

/-- UTF-8 encoding of a text value, given as its code points. -/
def utf8Encode : List Nat → List Nat
  | [] => []
  | c :: cs => utf8EncodeChar c ++ utf8Encode cs

/-- The NUL-terminated byte buffer the binding builds from a text value:
`value.encode('utf-8') + bytes([0])` (source lines 207, 230, 250, 284,
399 and 421). -/
def encodeNulTerminated (s : List Nat) : List Nat := utf8Encode s ++ [0]

/-- The callback adapter the binding installs into the native read loop
(source lines 291–298): it unpacks the user tuple and calls the Python
callback with the received message — `None` when the native layer hands
over a null pointer — and the caller's context, returning the
callback's value to the native loop. -/
def bus_callback_wrapper {α : Type} (callback : Option (List Nat) → α → Int)
    (user_data : α) (message : Option (List Nat)) : Int :=
  match message with
  | none => callback none user_data
  | some bs => callback (some bs) user_data

/-- The native bus library as the binding sees it: every entry point
yields its C return value together with the value of `errno`
immediately after the call.  The binding layer is verified over an
arbitrary such environment.  The pathname `bus_create` reports through
its output parameter is modelled as the text it decodes to. -/
structure NativeEnv where
  create : Option (List Nat) → Int → Int × List Nat × Nat
  unlink : List Nat → Int × Nat
  openBus : Int → List Nat → Int → Int × Nat
  closeBus : Int → Int × Nat
  write : Int → List Nat → Int → Int × Nat
  readBus : Int → (Option (List Nat) → Int) → Int × Nat
  pollStart : Int → Int × Nat
  pollStop : Int → Int × Nat
  poll : Int → Int → Option (List Nat) × Nat
  chown : List Nat → Nat → Nat → Int × Nat
  chmod : List Nat → Nat → Int × Nat

/-- `bus_create_wrapped` (source lines 190–217): with a pathname it
passes its NUL-terminated encoding and returns the original pathname on
success and `None` on failure; with no pathname it returns the reported
fresh pathname on success; either way paired with `errno`. -/
def bus_create_wrapped (env : NativeEnv) (file : Option (List Nat)) (flags : Int) :
    Option (List Nat) × Nat :=
  match file with
  | some f =>
      (if (env.create (some (encodeNulTerminated f)) flags).1 = 0 then some f
        else none,
        (env.create (some (encodeNulTerminated f)) flags).2.2)
  | none =>
      (if (env.create none flags).1 = 0 then some ((env.create none flags).2.1)
        else none,
        (env.create none flags).2.2)

/-- `bus_unlink_wrapped` (source lines 220–234). -/
def bus_unlink_wrapped (env : NativeEnv) (file : List Nat) : Int × Nat :=
  env.unlink (encodeNulTerminated file)

/-- `bus_open_wrapped` (source lines 237–254). -/
def bus_open_wrapped (env : NativeEnv) (bus : Int) (file : List Nat)
    (flags : Int) : Int × Nat :=
  env.openBus bus (encodeNulTerminated file) flags

/-- `bus_close_wrapped` (source lines 257–267). -/
def bus_close_wrapped (env : NativeEnv) (bus : Int) : Int × Nat :=
  env.closeBus bus

/-- `bus_write_wrapped` (source lines 270–288): encodes the message as
UTF-8, appends one NUL byte, and hands the buffer to the native write. -/
def bus_write_wrapped (env : NativeEnv) (bus : Int) (message : List Nat)
    (flags : Int) : Int × Nat :=
  env.write bus (encodeNulTerminated message) flags

/-- `bus_read_wrapped` (source lines 301–322): installs
`bus_callback_wrapper` over the packed `(callback, user_data)` pair and
enters the native read loop. -/
def bus_read_wrapped (env : NativeEnv) (bus : Int) {α : Type}
    (callback : Option (List Nat) → α → Int) (user_data : α) : Int × Nat :=
  env.readBus bus (bus_callback_wrapper callback user_data)

/-- `bus_poll_start_wrapped` (source lines 325–340). -/
def bus_poll_start_wrapped (env : NativeEnv) (bus : Int) : Int × Nat :=
  env.pollStart bus

/-- `bus_poll_stop_wrapped` (source lines 343–355). -/
def bus_poll_stop_wrapped (env : NativeEnv) (bus : Int) : Int × Nat :=
  env.pollStop bus

/-- `bus_poll_wrapped` (source lines 358–382): `None` paired with `errno`
when the native poll reports a null pointer, otherwise the received
bytes paired with `errno`. -/
def bus_poll_wrapped (env : NativeEnv) (bus : Int) (flags : Int) :
    Option (List Nat) × Nat :=
  match env.poll bus flags with
  | (none, e) => (none, e)
  | (some msg, e) => (some msg, e)

/-- `bus_chown_wrapped` (source lines 385–403). -/
def bus_chown_wrapped (env : NativeEnv) (file : List Nat) (owner group : Nat) :
    Int × Nat :=
  env.chown (encodeNulTerminated file) owner group

/-- `bus_chmod_wrapped` (source lines 406–425). -/
def bus_chmod_wrapped (env : NativeEnv) (file : List Nat) (mode : Nat) :
    Int × Nat :=
  env.chmod (encodeNulTerminated file) mode

/-- An event the native read loop observes: a received message (`none`
when the native layer reports a per-message error) or a failure of the
underlying poll. -/
inductive ReadEvent where
  | delivered (message : Option (List Nat))
  | pollFail

/-- The status of the read loop after a sequence of events. -/
inductive ReadResult where
  | ok
  | error
  | listening
  deriving DecidableEq

/-- Modelled from the spec: the native `bus_read` loop (spec §4.4 and the
`bus_read` extern documentation), absent from the source: on each
received message it invokes the installed callback, whose return value
0 stops listening cleanly, 1 continues, and -1 aborts the loop with
failure; a failure of the underlying poll also aborts it.  `listening`
is the status after exhausting the given events without stopping. -/
def bus_read_native (cb : Option (List Nat) → Int) : List ReadEvent → ReadResult
  | [] => .listening
  | ReadEvent.pollFail :: _ => .error
  | ReadEvent.delivered m :: rest =>
      if cb m = 0 then .ok
      else if cb m = 1 then bus_read_native cb rest
      else .error

/-- The read loop as entered through the binding: the native loop driven
by the callback adapter that `bus_read_wrapped` installs. -/
def bus_read_run {α : Type} (callback : Option (List Nat) → α → Int)
    (user_data : α) (events : List ReadEvent) : ReadResult :=
  bus_read_native (bus_callback_wrapper callback user_data) events

/-- C8: every public binding operation evaluates to a two-element tuple
(a coarse result paired with a platform error code) whose second
element is exactly the `errno` value captured immediately after the
underlying native call, for `create`, `unlink`, `open`, `close`,
`write`, `read`, `poll_start`, `poll`, `poll_stop`, `chown` and
`chmod`. -/
theorem wrapped_ops_return_errno_pairs (env : NativeEnv) (bus flags : Int)
    {α : Type} (callback : Option (List Nat) → α → Int) (user_data : α)
    (file message : List Nat) (ofile : Option (List Nat))
    (owner group mode : Nat) :
    (bus_create_wrapped env ofile flags).2 =
      (env.create (ofile.map encodeNulTerminated) flags).2.2 ∧
    (bus_unlink_wrapped env file).2 =
      (env.unlink (encodeNulTerminated file)).2 ∧
    (bus_open_wrapped env bus file flags).2 =
      (env.openBus bus (encodeNulTerminated file) flags).2 ∧
    (bus_close_wrapped env bus).2 = (env.closeBus bus).2 ∧
    (bus_write_wrapped env bus message flags).2 =
      (env.write bus (encodeNulTerminated message) flags).2 ∧
    (bus_read_wrapped env bus callback user_data).2 =
      (env.readBus bus (bus_callback_wrapper callback user_data)).2 ∧
    (bus_poll_start_wrapped env bus).2 = (env.pollStart bus).2 ∧
    (bus_poll_wrapped env bus flags).2 = (env.poll bus flags).2 ∧
    (bus_poll_stop_wrapped env bus).2 = (env.pollStop bus).2 ∧
    (bus_chown_wrapped env file owner group).2 =
      (env.chown (encodeNulTerminated file) owner group).2 ∧
    (bus_chmod_wrapped env file mode).2 =
      (env.chmod (encodeNulTerminated file) mode).2 := by
  refine ⟨?_, rfl, rfl, rfl, rfl, rfl, rfl, ?_, rfl, rfl, rfl⟩
  · cases ofile <;> rfl
  · rcases hp : env.poll bus flags with ⟨msg, e⟩
    cases msg <;> simp [bus_poll_wrapped, hp]

theorem bus_callback_wrapper_forwards {α : Type}
    (callback : Option (List Nat) → α → Int) (user_data : α)
    (m : Option (List Nat)) :
    bus_callback_wrapper callback user_data m = callback m user_data := by
  cases m <;> rfl

/-- C9: the read loop invokes the user callback with the current message
(`None` on a per-message error) and the caller's context, forwarding
the callback's return value unchanged to the native loop; a return of
0 stops the loop cleanly, 1 continues it, -1 aborts it with failure,
and an underlying poll failure also aborts it. -/
theorem read_loop_callback_control {α : Type}
    (callback : Option (List Nat) → α → Int) (user_data : α)
    (m : Option (List Nat)) (events : List ReadEvent) :
    bus_callback_wrapper callback user_data m = callback m user_data ∧
    (callback m user_data = 0 →
      bus_read_run callback user_data (ReadEvent.delivered m :: events) = .ok) ∧
    (callback m user_data = 1 →
      bus_read_run callback user_data (ReadEvent.delivered m :: events) =
        bus_read_run callback user_data events) ∧
    (callback m user_data = -1 →
      bus_read_run callback user_data (ReadEvent.delivered m :: events) = .error) ∧
    bus_read_run callback user_data (ReadEvent.pollFail :: events) = .error := by
  refine ⟨bus_callback_wrapper_forwards callback user_data m,
    fun h => ?_, fun h => ?_, fun h => ?_, rfl⟩
  · simp [bus_read_run, bus_read_native, bus_callback_wrapper_forwards, h]
  · simp [bus_read_run, bus_read_native, bus_callback_wrapper_forwards, h]
  · simp [bus_read_run, bus_read_native, bus_callback_wrapper_forwards, h]

theorem read_loop_callback_control_witness :
    bus_read_run (fun _ (_ : Nat) => (0 : Int)) 0 [ReadEvent.delivered none] =
      .ok ∧
    bus_read_run (fun _ (_ : Nat) => (1 : Int)) 0 [ReadEvent.delivered none] =
      .listening ∧
    bus_read_run (fun _ (_ : Nat) => (-1 : Int)) 0 [ReadEvent.delivered none] =
      .error := by
  refine ⟨?_, ?_, ?_⟩
  · exact (read_loop_callback_control (fun _ (_ : Nat) => (0 : Int)) 0 none []).2.1
      rfl
  · have h := (read_loop_callback_control (fun _ (_ : Nat) => (1 : Int)) 0 none
      []).2.2.1 rfl
    rw [h]
    rfl
  · exact (read_loop_callback_control (fun _ (_ : Nat) => (-1 : Int)) 0 none
      []).2.2.2.1 rfl

theorem zero_mem_utf8EncodeChar (c : Nat) : (0 ∈ utf8EncodeChar c) ↔ c = 0 := by
  unfold utf8EncodeChar
  split_ifs with h1 h2 h3
  · simp only [List.mem_singleton]
    omega
  · simp only [List.mem_cons, List.not_mem_nil, or_false]
    omega
  · simp only [List.mem_cons, List.not_mem_nil, or_false]
    omega
  · simp only [List.mem_cons, List.not_mem_nil, or_false]
    omega

theorem zero_mem_utf8Encode (s : List Nat) : (0 ∈ utf8Encode s) ↔ 0 ∈ s := by
  induction s with
  | nil => simp [utf8Encode]
  | cons c cs ih =>
      simp only [utf8Encode, List.mem_append, List.mem_cons, ih,
        zero_mem_utf8EncodeChar]
      constructor
      · rintro (h | h)
        · exact Or.inl h.symm
        · exact Or.inr h
      · rintro (h | h)
        · exact Or.inl h.symm
        · exact Or.inr h

theorem takeWhile_ne_zero_append (xs ys : List Nat) (h : (0 : Nat) ∈ xs) :
    (xs ++ ys).takeWhile (fun b => b ≠ 0) = xs.takeWhile (fun b => b ≠ 0) := by
  induction xs with
  | nil => cases h
  | cons x xs ih =>
      by_cases hx : x = 0
      · subst hx
        simp [List.takeWhile]
      · have hx' : decide (x ≠ 0) = true := decide_eq_true hx
        have hmem : (0 : Nat) ∈ xs := by
          rcases List.mem_cons.mp h with h0 | h0
          · exact absurd h0.symm hx
          · exact h0
        simp only [List.cons_append, List.takeWhile, hx']
        exact congrArg (x :: ·) (ih hmem)

theorem length_takeWhile_ne_zero_lt (xs : List Nat) (h : (0 : Nat) ∈ xs) :
    (xs.takeWhile (fun b => b ≠ 0)).length < xs.length := by
  induction xs with
  | nil => cases h
  | cons x xs ih =>
      by_cases hx : x = 0
      · subst hx
        simp [List.takeWhile]
      · have hx' : decide (x ≠ 0) = true := decide_eq_true hx
        have hmem : (0 : Nat) ∈ xs := by
          rcases List.mem_cons.mp h with h0 | h0
          · exact absurd h0.symm hx
          · exact h0
        simp only [List.takeWhile, hx', List.length_cons]
        exact Nat.succ_lt_succ (ih hmem)

/-- C10: `bus_write_wrapped` hands the native write exactly the UTF-8
encoding of the message followed by one appended NUL byte, so the byte
length reaching the native `BUS_MEMORY_SIZE` check is
`len(utf8(message)) + 1`; a message containing the character U+0000 is
delivered truncated at its first NUL — the NUL-terminated content the
native layer sees is the encoding cut at the first zero byte, strictly
shorter than the full encoding — while a message without U+0000 is
delivered whole. -/
theorem write_marshals_utf8_nul_terminated (m : List Nat) :
    (∀ env bus flags, bus_write_wrapped env bus m flags =
      env.write bus (utf8Encode m ++ [0]) flags) ∧
    (encodeNulTerminated m).length = (utf8Encode m).length + 1 ∧
    ((0 : Nat) ∈ m →
      cstr (encodeNulTerminated m) =
        (utf8Encode m).takeWhile (fun b => b ≠ 0) ∧
      (cstr (encodeNulTerminated m)).length < (utf8Encode m).length) ∧
    ((0 : Nat) ∉ m → cstr (encodeNulTerminated m) = utf8Encode m) := by
  refine ⟨fun env bus flags => rfl, by simp [encodeNulTerminated],
    fun h0 => ?_, fun h0 => ?_⟩
  · have hmem : (0 : Nat) ∈ utf8Encode m := (zero_mem_utf8Encode m).mpr h0
    have heq : cstr (encodeNulTerminated m) =
        (utf8Encode m).takeWhile (fun b => b ≠ 0) :=
      takeWhile_ne_zero_append (utf8Encode m) [0] hmem
    refine ⟨heq, ?_⟩
    rw [heq]
    exact length_takeWhile_ne_zero_lt (utf8Encode m) hmem
  · have hmem : (0 : Nat) ∉ utf8Encode m :=
      fun hc => h0 ((zero_mem_utf8Encode m).mp hc)
    exact cstr_append_nul (utf8Encode m) hmem

theorem write_marshals_utf8_nul_terminated_witness :
    (cstr (encodeNulTerminated [104, 0, 233]) =
        (utf8Encode [104, 0, 233]).takeWhile (fun b => b ≠ 0) ∧
      (cstr (encodeNulTerminated [104, 0, 233])).length <
        (utf8Encode [104, 0, 233]).length) ∧
    cstr (encodeNulTerminated [104, 233]) = utf8Encode [104, 233] :=
  ⟨(write_marshals_utf8_nul_terminated [104, 0, 233]).2.2.1 (by decide),
    (write_marshals_utf8_nul_terminated [104, 233]).2.2.2 (by decide)⟩

end PythonBus
